import Mathlib

/-!
Verification of the object-graph and stream-codec core of the `unidoc` PDF
library fragment (files `pdf/core/stream.go` and the `core` fuzz tests).

The Go code is shallowly embedded: PDF object values become an inductive
type, the stream dictionary becomes an association list with map-like
`Get`/`Set`, Go's `(value, error)` returns become `Except`/custom result
types, and Go's `panic` becomes an explicit `panic` outcome of a result
type (so that "returns an error" and "aborts the process" are
distinguishable propositions).  The per-filter encoder constructors
(`newFlateEncoderFromStream`, …), the multi-encoder constructor and the
codec `EncodeBytes` operations live outside the given sources; the spec
declares them external collaborators, so they are universally-quantified
oracle parameters here.
-/

namespace Unidoc

/-- PDF object values (the closed variant set of the object model):
Null, Boolean, Integer, Name, Reference, Array, plus the scalar leaves
the claims need.  Dictionaries and streams are separate structures below,
mirroring `PdfObjectDictionary` / `PdfObjectStream` in the Go code. -/
inductive PdfObject where
  | null : PdfObject
  | bool (b : Bool) : PdfObject
  | integer (i : Int) : PdfObject
  | name (s : String) : PdfObject
  | ref (objNum gen : Int) : PdfObject
  | array (elems : List PdfObject) : PdfObject

/-- A PDF dictionary: mapping from key to object value.
`Get` returns the value for a key, `Set` overwrites it (Go map semantics,
modelled by an association list with replace-or-append update). -/
def PdfDict := List (String × PdfObject)

/-- `dict.Get(key)`: `none` models Go's `nil` result for a missing key. -/
def PdfDict.Get : PdfDict → String → Option PdfObject
  | [], _ => none
  | (k, v) :: rest, key => if k = key then some v else PdfDict.Get rest key

/-- `dict.Set(key, val)`: replace the existing entry or append a new one. -/
def PdfDict.Set : PdfDict → String → PdfObject → PdfDict
  | [], key, val => [(key, val)]
  | (k, v) :: rest, key, val =>
      if k = key then (key, val) :: rest else (k, v) :: PdfDict.Set rest key val

/-- `PdfObjectStream`: a dictionary plus the raw byte payload
(`streamObj.PdfObjectDictionary` and `streamObj.Stream` in Go).
Bytes are modelled as naturals. -/
structure PdfObjectStream where
  dict : PdfDict
  stream : List Nat

/-- The encoder variants (`StreamEncoder` implementations in Go).
`lzw` carries its `EarlyChange` parameter; `multi` carries the chained
encoders. -/
inductive StreamEncoder where
  | raw : StreamEncoder
  | flate : StreamEncoder
  | lzw (earlyChange : Int) : StreamEncoder
  | dct : StreamEncoder
  | runLength : StreamEncoder
  | asciiHex : StreamEncoder
  | ascii85 : StreamEncoder
  | ccittFax : StreamEncoder
  | jbig2 : StreamEncoder
  | jpx : StreamEncoder
  | multi (encs : List StreamEncoder) : StreamEncoder

/-- Result of a Go function returning `(T, error)` whose body may also
`panic`: `ok` is a nil-error return, `error` a non-nil error return, and
`panic` an abort of the process (no value reaches the caller). -/
inductive GoResult (α : Type) where
  | ok (a : α) : GoResult α
  | error (msg : String) : GoResult α
  | panic (msg : String) : GoResult α

/-- Modelled from the spec: the `StreamEncodingFilterName*` string
constants are declared outside the given sources; the spec only fixes the
set of named filters (Flate, LZW, DCT, RunLength, ASCIIHex, ASCII85,
CCITTFax, JBIG2, JPX).  The standard PDF filter names are used; no claim
depends on the concrete strings, only on their distinctness. -/
def StreamEncodingFilterNameFlate : String := "FlateDecode"

def StreamEncodingFilterNameLZW : String := "LZWDecode"

def StreamEncodingFilterNameDCT : String := "DCTDecode"

def StreamEncodingFilterNameRunLength : String := "RunLengthDecode"

def StreamEncodingFilterNameASCIIHex : String := "ASCIIHexDecode"

def StreamEncodingFilterNameASCII85 : String := "ASCII85Decode"

def StreamEncodingFilterNameCCITTFax : String := "CCITTFaxDecode"

def StreamEncodingFilterNameJBIG2 : String := "JBIG2Decode"

def StreamEncodingFilterNameJPX : String := "JPXDecode"

/-- The per-filter constructors that consult the stream's dictionary
(`newFlateEncoderFromStream`, `newLZWEncoderFromStream`,
`newDCTEncoderFromStream`, `newRunLengthEncoderFromStream`).  Their code
is outside the given sources; they are an oracle, selected by filter
name. -/
structure FilterCtors where
  mkFlate : PdfObjectStream → Except String StreamEncoder
  mkLZW : PdfObjectStream → Except String StreamEncoder
  mkDCT : PdfObjectStream → Except String StreamEncoder
  mkRunLength : PdfObjectStream → Except String StreamEncoder
  mkMulti : PdfObjectStream → Except String StreamEncoder

/-- Lift an external constructor's `Except` result into a `GoResult`
(the Go code returns such errors to the caller; it never panics there). -/
def liftCtor : Except String StreamEncoder → GoResult StreamEncoder
  | .ok enc => .ok enc
  | .error msg => .error msg

/-- The trailing name-dispatch chain of `NewEncoderFromStream`
(`if *method == StreamEncodingFilterNameFlate { … } else if … else {
log; panic(err); return nil, err }`).  The unsupported-name branch panics
before its (unreachable) error return, which the embedding records as a
`panic` outcome. -/
def dispatchFilterName (ctors : FilterCtors) (method : String)
    (streamObj : PdfObjectStream) : GoResult StreamEncoder :=
  if method = StreamEncodingFilterNameFlate then
    liftCtor (ctors.mkFlate streamObj)
  else if method = StreamEncodingFilterNameLZW then
    liftCtor (ctors.mkLZW streamObj)
  else if method = StreamEncodingFilterNameDCT then
    liftCtor (ctors.mkDCT streamObj)
  else if method = StreamEncodingFilterNameRunLength then
    liftCtor (ctors.mkRunLength streamObj)
  else if method = StreamEncodingFilterNameASCIIHex then
    .ok .asciiHex
  else if method = StreamEncodingFilterNameASCII85 then
    .ok .ascii85
  else if method = StreamEncodingFilterNameCCITTFax then
    .ok .ccittFax
  else if method = StreamEncodingFilterNameJBIG2 then
    .ok .jbig2
  else if method = StreamEncodingFilterNameJPX then
    .ok .jpx
  else
    .panic ("Unsupported encoding method (" ++ method ++ ")")

/-- `NewEncoderFromStream(streamObj)` from `pdf/core/stream.go`:
inspect the dictionary's `Filter` entry — absent or Null gives the raw
encoder; a Name dispatches on the name; an Array gives raw when empty,
the multi encoder when its length is not 1, and otherwise requires its
single member to be a Name, dispatched identically to a bare Name. -/
def NewEncoderFromStream (ctors : FilterCtors)
    (streamObj : PdfObjectStream) : GoResult StreamEncoder :=
  match streamObj.dict.Get "Filter" with
  | none => .ok .raw
  | some .null => .ok .raw
  | some (.name method) => dispatchFilterName ctors method streamObj
  | some (.array elems) =>
      match elems with
      | [] => .ok .raw
      | [single] =>
          match single with
          | .name method => dispatchFilterName ctors method streamObj
          | _ => .error "Filter array member not a Name object"
      | _ => liftCtor (ctors.mkMulti streamObj)
  | some _ => .error "Filter not a Name or Array object"

/-- Outcome of `EncodeStream(streamObj)`: Go mutates `streamObj` in
place and returns an `error`, so each non-panic outcome carries the state
of the stream object at the return point (`ok` after a nil-error return,
`error` after a non-nil one). -/
inductive EncodeResult where
  | ok (s : PdfObjectStream) : EncodeResult
  | error (msg : String) (s : PdfObjectStream) : EncodeResult
  | panic (msg : String) : EncodeResult

/-- The codec boundary `EncodeBytes(data)`: each encoder's bit-level
encode operation, an external collaborator per the spec; failures are
propagated unchanged. -/
def EncodeBytesOracle : Type := StreamEncoder → List Nat → Except String (List Nat)

/-- The LZW adjustment step of `EncodeStream`: if the selected encoder is
an `*LZWEncoder`, set its `EarlyChange` field to 0 and write `EarlyChange
↦ Integer 0` into the stream's dictionary; any other encoder leaves both
untouched. -/
def adjustForLZW (enc : StreamEncoder) (s : PdfObjectStream) :
    StreamEncoder × PdfObjectStream :=
  match enc with
  | .lzw _ => (.lzw 0, { s with dict := s.dict.Set "EarlyChange" (.integer 0) })
  | e => (e, s)

/-- `EncodeStream(streamObj)` from `pdf/core/stream.go`: select the
encoder, apply the LZW early-change adjustment, encode the current
payload through the codec, and on success store the encoded bytes and set
`Length` to their byte count. -/
def EncodeStream (ctors : FilterCtors) (encB : EncodeBytesOracle)
    (s : PdfObjectStream) : EncodeResult :=
  match NewEncoderFromStream ctors s with
  | .panic msg => .panic msg
  | .error msg => .error msg s
  | .ok enc =>
      match encB (adjustForLZW enc s).1 (adjustForLZW enc s).2.stream with
      | .error msg => .error msg (adjustForLZW enc s).2
      | .ok encoded =>
          .ok { dict := (adjustForLZW enc s).2.dict.Set "Length"
                  (.integer (encoded.length : Int)),
                stream := encoded }

/-- State of the parser's buffered positional reader: the underlying
seekable source `rs` (its byte content and current seek position) and the
`bufio.Reader` wrapped around it, abstracted to the number of bytes it
holds read-ahead but not yet consumed (`reader.Buffered()`). -/
structure BufReaderState where
  data : List Nat
  srcPos : Nat
  buffered : Nat

/-- `GetFileOffset()` from `pdf/core/stream.go`: the source's seek
position (`rs.Seek(0, SEEK_CUR)`) minus the bytes still buffered
unconsumed. -/
def GetFileOffset (st : BufReaderState) : Int :=
  (st.srcPos : Int) - (st.buffered : Int)

/-- `SetFileOffset(offset)` from `pdf/core/stream.go`: seek the source to
`offset` (`rs.Seek(offset, SEEK_SET)`) and wrap it in a fresh
`bufio.NewReader`, discarding all buffered bytes. -/
def SetFileOffset (st : BufReaderState) (offset : Nat) : BufReaderState :=
  { st with srcPos := offset, buffered := 0 }

/-- One `Read` call against the buffered reader asking for up to `k`
bytes with physical read-ahead size `readAhead`: serve from the buffer
when nonempty; otherwise fill the buffer from the source (advancing the
source's seek position) and serve from the fresh fill.  Returns the
number of bytes consumed by the caller and the new state. -/
def bufRead (readAhead k : Nat) (st : BufReaderState) :
    Nat × BufReaderState :=
  if 0 < st.buffered then
    let c := min k st.buffered
    (c, { st with buffered := st.buffered - c })
  else
    let avail := st.data.length - st.srcPos
    let fill := min readAhead avail
    let c := min k fill
    (c, { st with srcPos := st.srcPos + fill, buffered := fill - c })

/-- A sequence of buffered reads: total bytes consumed and final state. -/
def bufReadMany (readAhead : Nat) : List Nat → BufReaderState →
    Nat × BufReaderState
  | [], st => (0, st)
  | k :: ks, st =>
      ((bufRead readAhead k st).1 +
          (bufReadMany readAhead ks (bufRead readAhead k st).2).1,
        (bufReadMany readAhead ks (bufRead readAhead k st).2).2)

/-- One response of the underlying reader consumed by `ReadAtLeast`:
either a successful `Read` delivering `k` bytes (clamped by the remaining
capacity of the destination slice, per the `io.Reader` contract) or a
read error. -/
inductive ReadResp where
  | bytes (k : Nat) : ReadResp
  | fail : ReadResp

/-- Result of `ReadAtLeast`: the returned byte count together with
whether the error return was nil. -/
inductive ReadAtLeastResult where
  | ok (count : Nat) : ReadAtLeastResult
  | err (count : Nat) (msg : String) : ReadAtLeastResult

/-- The loop of `ReadAtLeast(p, n)` from `pdf/core/stream.go`: while
`remaining > 0`, call `this.reader.Read(p[start:])`; a read error returns
`(start, "Failed reading")`; otherwise `start += nRead` and `remaining -=
nRead`.  The underlying reader's behaviour is the oracle list `resps`
(one entry per call); `none` means the oracle was exhausted before the
loop finished, leaving the outcome undetermined by the model. -/
def ReadAtLeastLoop (pLen : Nat) : List ReadResp → Nat → Int →
    Option ReadAtLeastResult
  | [], start, remaining =>
      if remaining ≤ 0 then some (.ok start) else none
  | r :: rest, start, remaining =>
      if remaining ≤ 0 then some (.ok start)
      else
        match r with
        | .fail => some (.err start "Failed reading")
        | .bytes k =>
            ReadAtLeastLoop pLen rest (start + min k (pLen - start))
              (remaining - (min k (pLen - start) : Nat))

/-- `ReadAtLeast(p, n)` with destination capacity `len(p) = pLen`. -/
def ReadAtLeast (pLen : Nat) (n : Int) (resps : List ReadResp) :
    Option ReadAtLeastResult :=
  ReadAtLeastLoop pLen resps 0 n

/-- Modelled from the spec: the content of one indirect object as the
external tokenizer delivers it at a given offset — either a plain object
value or a stream (dictionary plus raw payload) whose `Length` entry may
itself be a Reference.  The tokenizer and `ParseIndirectObject` are not
among the given sources (only their fuzz tests are). -/
inductive IndirectContent where
  | plain (obj : PdfObject) : IndirectContent
  | stream (dict : PdfDict) (payload : List Nat) : IndirectContent

/-- Modelled from the spec: an indirect object header (object number,
generation) with its content, as found at a document offset. -/
structure PreObject where
  objNum : Int
  gen : Int
  content : IndirectContent

/-- Modelled from the spec: the document byte source, abstracted to the
map from byte offset to the indirect object the external tokenizer parses
there (`none` when no object starts at that offset). -/
def Document : Type := Nat → Option PreObject

/-- Modelled from the spec: the Cross-Reference Index maps object number
to storage location; lookup is by object number only. -/
def XrefTable : Type := List (Int × Nat)

/-- Modelled from the spec: cross-reference lookup — unknown object
number yields no location ("no such object"). -/
def lookupXref : XrefTable → Int → Option Nat
  | [], _ => none
  | (num, off) :: rest, n => if num = n then some off else lookupXref rest n

/-- Modelled from the spec: the error kinds of one indirect-object parse;
`circularReference` is the explicit "circular/self length reference"
failure demanded by the cycle guard. -/
inductive ParseErr where
  | circularReference : ParseErr
  | objectNotFound : ParseErr
  | invalidLength : ParseErr
  deriving DecidableEq

/-- Modelled from the spec: a resolved value — a plain object or a fully
parsed stream object (in Go both are `PdfObject`s). -/
inductive ResolvedObject where
  | obj (o : PdfObject) : ResolvedObject
  | streamObj (s : PdfObjectStream) : ResolvedObject

/-- Modelled from the spec: `ParseIndirectObject`, absent from the given
sources.  Parse the indirect object at `offset`; when it is a stream
whose `Length` is a Reference, resolve that reference under the in-flight
resolution set: a target object number already in the set fails
immediately with the circular-reference error, otherwise the number is
recorded and the referenced object is parsed at its recorded location.  A
dangling `Length` reference resolves to Null (spec 4.4), which then fails
as an invalid length.  `fuel` bounds the recursion depth so the model is
total; `none` marks fuel exhaustion and the claims below show the
guarded parse never reaches it past depth two on the cyclic inputs. -/
def ParseIndirectObject (doc : Document) (xrefs : XrefTable) :
    Nat → List Int → Nat → Option (Except ParseErr ResolvedObject)
  | 0, _, _ => none
  | fuel + 1, inProgress, offset =>
      match doc offset with
      | none => some (.error .objectNotFound)
      | some pre =>
          match pre.content with
          | .plain o => some (.ok (.obj o))
          | .stream d payload =>
              match d.Get "Length" with
              | some (.integer _) => some (.ok (.streamObj ⟨d, payload⟩))
              | some (.ref n _) =>
                  if n ∈ inProgress then some (.error .circularReference)
                  else
                    match lookupXref xrefs n with
                    | none => some (.error .invalidLength)
                    | some off2 =>
                        match ParseIndirectObject doc xrefs fuel
                            (n :: inProgress) off2 with
                        | none => none
                        | some (.error e) => some (.error e)
                        | some (.ok (.obj (.integer _))) =>
                            some (.ok (.streamObj ⟨d, payload⟩))
                        | some (.ok _) => some (.error .invalidLength)
              | _ => some (.error .invalidLength)

/-- Modelled from the spec: `Trace` (the reference resolver), absent from
the given sources.  A non-Reference is returned unchanged with no error;
a Reference whose object number is absent from the Cross-Reference Index
returns Null with no error (a dangling reference is a normal value);
otherwise exactly one indirect object is parsed at the recorded
location. -/
def Trace (doc : Document) (xrefs : XrefTable) (fuel : Nat)
    (obj : PdfObject) : Option (Except ParseErr ResolvedObject) :=
  match obj with
  | .ref n _ =>
      match lookupXref xrefs n with
      | none => some (.ok (.obj .null))
      | some off => ParseIndirectObject doc xrefs fuel [] off
  | o => some (.ok (.obj o))

/-! ### Dictionary lemmas -/

theorem PdfDict.get_set_self (d : PdfDict) (k : String) (v : PdfObject) :
    (d.Set k v).Get k = some v := by
  induction d with
  | nil => simp [PdfDict.Set, PdfDict.Get]
  | cons hd tl ih =>
      obtain ⟨k', v'⟩ := hd
      by_cases hk : k' = k <;> simp [PdfDict.Set, PdfDict.Get, hk, ih]

theorem PdfDict.get_set_ne (d : PdfDict) (k k' : String) (v : PdfObject)
    (h : k' ≠ k) : (d.Set k v).Get k' = d.Get k' := by
  induction d with
  | nil => simp [PdfDict.Set, PdfDict.Get, Ne.symm h]
  | cons hd tl ih =>
      obtain ⟨k0, v0⟩ := hd
      by_cases hk : k0 = k
      · subst hk
        simp [PdfDict.Set, PdfDict.Get, Ne.symm h]
      · simp [PdfDict.Set, PdfDict.Get, hk, ih]

/-! ### Claim theorems -/

/-- C3: resolving a Reference whose object number is absent from the
Cross-Reference Index (any object number, negative ones included) returns
the Null object with no error — a dangling reference is a normal value,
not a failure. -/
theorem trace_dangling_reference_yields_null (doc : Document)
    (xrefs : XrefTable) (fuel : Nat) (n g : Int)
    (h : lookupXref xrefs n = none) :
    Trace doc xrefs fuel (.ref n g) = some (.ok (.obj .null)) := by
  simp [Trace, h]

/-- Witness for C3 at the fuzz-regression input: object number −1
against an empty cross-reference index. -/
theorem trace_dangling_reference_yields_null_witness :
    lookupXref [] (-1) = none ∧
    Trace (fun _ => none) [] 0 (.ref (-1) 0) = some (.ok (.obj .null)) :=
  ⟨rfl, trace_dangling_reference_yields_null (fun _ => none) [] 0 (-1) 0 rfl⟩

/-- C2: parsing an indirect stream object whose dictionary `Length` is a
Reference leading back to the object being parsed — its own object
number, or a different number whose cross-reference entry records the
same storage location — fails with the explicit circular-reference error
under every fuel budget of at least two, so the guarded parse terminates
at bounded depth instead of looping or recursing unboundedly. -/
theorem parse_cyclic_stream_length_fails_bounded (doc : Document)
    (xrefs : XrefTable) (offset : Nat) (pre : PreObject) (d : PdfDict)
    (payload : List Nat) (n g : Int) (fuel : Nat)
    (hdoc : doc offset = some pre)
    (hcontent : pre.content = .stream d payload)
    (hlen : d.Get "Length" = some (.ref n g))
    (hxref : lookupXref xrefs n = some offset) :
    ParseIndirectObject doc xrefs (fuel + 2) [] offset =
      some (.error .circularReference) := by
  unfold ParseIndirectObject
  simp only [hdoc, hcontent, hlen, hxref]
  unfold ParseIndirectObject
  simp [hdoc, hcontent, hlen]

/-- The document of fuzz test `TestFuzzSelfReference1`: object 13 at
offset 0, a stream whose `Length` is `13 0 R` (its own object number). -/
def docSelfRef : Document := fun off =>
  if off = 0 then
    some ⟨13, 0, .stream [("Length", .ref 13 0)] [120, 120, 120]⟩
  else none

/-- The document of fuzz test `TestFuzzSelfReference2`: object 13 at
offset 0, a stream whose `Length` is `12 0 R`, where the cross-reference
entry for 12 aliases offset 0 (the object being parsed). -/
def docAliasRef : Document := fun off =>
  if off = 0 then
    some ⟨13, 0, .stream [("Length", .ref 12 0)] [120, 120, 120]⟩
  else none

/-- Witness for C2 at both fuzz-test inputs: the self-referential
`Length` (`13 0 R` with xref 13 ↦ 0) and the aliasing `Length`
(`12 0 R` with xref 12 ↦ 0) both fail with the circular-reference
error at fuel 2. -/
theorem parse_cyclic_stream_length_fails_bounded_witness :
    ParseIndirectObject docSelfRef [(13, 0)] 2 [] 0 =
        some (.error .circularReference) ∧
    ParseIndirectObject docAliasRef [(12, 0)] 2 [] 0 =
        some (.error .circularReference) :=
  ⟨parse_cyclic_stream_length_fails_bounded docSelfRef [(13, 0)] 0 _ _ _
      13 0 0 rfl rfl rfl rfl,
    parse_cyclic_stream_length_fails_bounded docAliasRef [(12, 0)] 0 _ _ _
      12 0 0 rfl rfl rfl rfl⟩

/-- A concrete instantiation of the external per-filter constructors,
used only to evaluate the embeddings at concrete inputs. -/
def ctorsW : FilterCtors :=
  ⟨fun _ => .ok .flate, fun _ => .ok (.lzw 1), fun _ => .ok .dct,
    fun _ => .ok .runLength, fun _ => .ok (.multi [])⟩

/-- A concrete instantiation of the codec boundary: the raw codec copies
its input, the LZW codec fails, every other codec prepends a byte. -/
def encBW : EncodeBytesOracle := fun enc bytes =>
  match enc with
  | .raw => .ok bytes
  | .lzw _ => .error "codec failure"
  | _ => .ok (0 :: bytes)

/-- C1: selecting an encoder for a recognized `Filter` shape naming an
unsupported filter does not surface an error to the caller — the code
logs and panics before its unreachable error return, terminating the
process.  This theorem evaluates the embedding at the failing input,
exhibiting the panic outcome for every choice of external constructors. -/
theorem new_encoder_unsupported_name_panics (ctors : FilterCtors) :
    NewEncoderFromStream ctors ⟨[("Filter", .name "Foo")], []⟩ =
      .panic "Unsupported encoding method (Foo)" := rfl

/-- C7: the encoder-selection decision table — absent, Null, or
empty-array `Filter` gives the raw encoder with no error; a one-element
array holding a Name dispatches exactly as the bare Name on the same
stream object; a one-element array whose member is not a Name fails with
the array-member error. -/
theorem new_encoder_filter_decision_table (ctors : FilterCtors)
    (s : PdfObjectStream) :
    (s.dict.Get "Filter" = none → NewEncoderFromStream ctors s = .ok .raw) ∧
    (s.dict.Get "Filter" = some .null →
        NewEncoderFromStream ctors s = .ok .raw) ∧
    (s.dict.Get "Filter" = some (.array []) →
        NewEncoderFromStream ctors s = .ok .raw) ∧
    (∀ nm, s.dict.Get "Filter" = some (.name nm) →
        NewEncoderFromStream ctors s = dispatchFilterName ctors nm s) ∧
    (∀ nm, s.dict.Get "Filter" = some (.array [.name nm]) →
        NewEncoderFromStream ctors s = dispatchFilterName ctors nm s) ∧
    (∀ single, s.dict.Get "Filter" = some (.array [single]) →
        (∀ nm, single ≠ .name nm) →
        NewEncoderFromStream ctors s =
          .error "Filter array member not a Name object") := by
  refine ⟨fun h => ?_, fun h => ?_, fun h => ?_, fun nm h => ?_,
    fun nm h => ?_, fun single h hn => ?_⟩ <;>
    simp [NewEncoderFromStream, h]

/-- Concrete streams exercising every row of the decision table. -/
def sNoFilter : PdfObjectStream := ⟨[], [1]⟩

def sNullFilter : PdfObjectStream := ⟨[("Filter", .null)], [1]⟩

def sEmptyArr : PdfObjectStream := ⟨[("Filter", .array [])], [1]⟩

def sArrFlate : PdfObjectStream :=
  ⟨[("Filter", .array [.name "FlateDecode"])], [1]⟩

def sBareFlate : PdfObjectStream := ⟨[("Filter", .name "FlateDecode")], [1]⟩

def sBadMember : PdfObjectStream := ⟨[("Filter", .array [.integer 5])], [1]⟩

/-- Witness for C7: the decision table evaluated at concrete streams for
each row. -/
theorem new_encoder_filter_decision_table_witness :
    NewEncoderFromStream ctorsW sNoFilter = .ok .raw ∧
    NewEncoderFromStream ctorsW sNullFilter = .ok .raw ∧
    NewEncoderFromStream ctorsW sEmptyArr = .ok .raw ∧
    NewEncoderFromStream ctorsW sBareFlate =
        dispatchFilterName ctorsW "FlateDecode" sBareFlate ∧
    NewEncoderFromStream ctorsW sArrFlate =
        dispatchFilterName ctorsW "FlateDecode" sArrFlate ∧
    NewEncoderFromStream ctorsW sBadMember =
        .error "Filter array member not a Name object" :=
  ⟨(new_encoder_filter_decision_table ctorsW sNoFilter).1 rfl,
    (new_encoder_filter_decision_table ctorsW sNullFilter).2.1 rfl,
    (new_encoder_filter_decision_table ctorsW sEmptyArr).2.2.1 rfl,
    (new_encoder_filter_decision_table ctorsW sBareFlate).2.2.2.1
      "FlateDecode" rfl,
    (new_encoder_filter_decision_table ctorsW sArrFlate).2.2.2.2.1
      "FlateDecode" rfl,
    (new_encoder_filter_decision_table ctorsW sBadMember).2.2.2.2.2
      (.integer 5) rfl (fun nm h => by cases h)⟩

/-- The payload of a non-LZW stream is unchanged by the LZW
adjustment. -/
theorem adjustForLZW_stream (enc : StreamEncoder) (s : PdfObjectStream) :
    (adjustForLZW enc s).2.stream = s.stream := by
  cases enc <;> rfl

/-- C5: whenever `EncodeStream` succeeds, the stream's payload has been
replaced by the codec's output on the pre-call payload, and the
dictionary's `Length` entry is the literal Integer equal to the byte
length of the newly stored payload. -/
theorem encode_stream_success_sets_payload_and_length (ctors : FilterCtors)
    (encB : EncodeBytesOracle) (s s' : PdfObjectStream)
    (h : EncodeStream ctors encB s = .ok s') :
    s'.dict.Get "Length" = some (.integer (s'.stream.length : Int)) ∧
    ∃ enc, encB enc s.stream = .ok s'.stream := by
  unfold EncodeStream at h
  cases hsel : NewEncoderFromStream ctors s with
  | error m => rw [hsel] at h; simp at h
  | panic m => rw [hsel] at h; simp at h
  | ok enc =>
      rw [hsel] at h
      dsimp only at h
      cases henc : encB (adjustForLZW enc s).1 (adjustForLZW enc s).2.stream with
      | error m => rw [henc] at h; simp at h
      | ok encoded =>
          rw [henc] at h
          cases h
          refine ⟨PdfDict.get_set_self _ _ _, ⟨(adjustForLZW enc s).1, ?_⟩⟩
          rw [adjustForLZW_stream] at henc
          exact henc

/-- Witness for C5: a raw-encoded stream whose payload is copied and
whose `Length` becomes the literal Integer 2. -/
theorem encode_stream_success_sets_payload_and_length_witness :
    EncodeStream ctorsW encBW sNoFilter =
        .ok ⟨[("Length", .integer 1)], [1]⟩ ∧
    ((⟨[("Length", .integer 1)], [1]⟩ : PdfObjectStream).dict.Get "Length" =
        some (.integer 1) ∧
      ∃ enc, encBW enc sNoFilter.stream = .ok [1]) :=
  ⟨rfl,
    encode_stream_success_sets_payload_and_length ctorsW encBW sNoFilter
      ⟨[("Length", .integer 1)], [1]⟩ rfl⟩

/-- C6: when the selected encoder is the LZW encoder, `EncodeStream`
leaves the dictionary's `EarlyChange` entry equal to the literal
Integer 0 in every returning outcome (success or codec failure),
whatever value it held before; and the codec is only ever invoked with
the early-change parameter forced to 0 — the outcome depends on the
codec's behaviour at the LZW encoder with early-change 0 alone. -/
theorem encode_stream_lzw_forces_early_change_zero (ctors : FilterCtors)
    (encB encB2 : EncodeBytesOracle) (s : PdfObjectStream) (e : Int)
    (hsel : NewEncoderFromStream ctors s = .ok (.lzw e)) :
    (∀ s', EncodeStream ctors encB s = .ok s' →
        s'.dict.Get "EarlyChange" = some (.integer 0)) ∧
    (∀ m s1, EncodeStream ctors encB s = .error m s1 →
        s1.dict.Get "EarlyChange" = some (.integer 0)) ∧
    (encB (.lzw 0) s.stream = encB2 (.lzw 0) s.stream →
        EncodeStream ctors encB s = EncodeStream ctors encB2 s) := by
  unfold EncodeStream
  rw [hsel]
  dsimp only [adjustForLZW]
  refine ⟨?_, ?_, ?_⟩
  · intro s' h
    cases henc : encB (.lzw 0) s.stream with
    | error m => rw [henc] at h; simp at h
    | ok encoded =>
        rw [henc] at h
        cases h
        rw [PdfDict.get_set_ne _ _ _ _ (by decide)]
        exact PdfDict.get_set_self _ _ _
  · intro m s1 h
    cases henc : encB (.lzw 0) s.stream with
    | error m2 =>
        rw [henc] at h
        cases h
        exact PdfDict.get_set_self _ _ _
    | ok encoded => rw [henc] at h; simp at h
  · intro hagree
    rw [hagree]

/-- The stream of fuzz interest for the LZW write path: `Filter` names
the LZW filter and `EarlyChange` holds the prior value 1. -/
def sLzw : PdfObjectStream :=
  ⟨[("Filter", .name "LZWDecode"), ("EarlyChange", .integer 1),
    ("Length", .integer 3)], [1, 2, 3]⟩

/-- `sLzw` as `EncodeStream` leaves it when the LZW codec fails: the
`EarlyChange` entry has already been overwritten with the Integer 0. -/
def sLzwAfter : PdfObjectStream :=
  ⟨[("Filter", .name "LZWDecode"), ("EarlyChange", .integer 0),
    ("Length", .integer 3)], [1, 2, 3]⟩

/-- Witness for C6: the LZW-filtered stream with prior `EarlyChange` 1,
run against the failing LZW codec, returns with `EarlyChange` rewritten
to the literal Integer 0. -/
theorem encode_stream_lzw_forces_early_change_zero_witness :
    NewEncoderFromStream ctorsW sLzw = .ok (.lzw 1) ∧
    EncodeStream ctorsW encBW sLzw = .error "codec failure" sLzwAfter ∧
    sLzwAfter.dict.Get "EarlyChange" = some (.integer 0) :=
  ⟨rfl, rfl,
    (encode_stream_lzw_forces_early_change_zero ctorsW encBW encBW sLzw 1
        rfl).2.1 "codec failure" sLzwAfter rfl⟩

/-- C4 counterexample: an LZW-filtered stream whose codec encode fails
is NOT left unmodified — `EncodeStream` returns an error, but the
stream object it leaves behind differs from the pre-call object (its
`EarlyChange` entry was rewritten from Integer 1 to Integer 0 before the
codec ran). -/
theorem encode_stream_failure_modifies_stream_counterexample :
    EncodeStream ctorsW encBW sLzw = .error "codec failure" sLzwAfter ∧
    sLzwAfter ≠ sLzw := by
  refine ⟨rfl, ?_⟩
  intro h
  have h2 : sLzwAfter.dict.Get "EarlyChange" = sLzw.dict.Get "EarlyChange" := by
    rw [h]
  simp [sLzwAfter, sLzw, PdfDict.Get] at h2

/-- C4 (amended): whenever `EncodeStream` fails, the stream's payload
and the dictionary's `Length` entry — and every entry other than
`EarlyChange` — are unchanged from their pre-call values; only the
`EarlyChange` entry may have been rewritten (to the Integer 0, by the
LZW adjustment that precedes the codec call). -/
theorem encode_stream_failure_preserves_payload_and_length
    (ctors : FilterCtors) (encB : EncodeBytesOracle) (s : PdfObjectStream)
    (m : String) (s1 : PdfObjectStream)
    (h : EncodeStream ctors encB s = .error m s1) :
    s1.stream = s.stream ∧
    s1.dict.Get "Length" = s.dict.Get "Length" ∧
    ∀ key, key ≠ "EarlyChange" → s1.dict.Get key = s.dict.Get key := by
  unfold EncodeStream at h
  cases hsel : NewEncoderFromStream ctors s with
  | panic m2 => rw [hsel] at h; simp at h
  | error m2 =>
      rw [hsel] at h
      cases h
      exact ⟨rfl, rfl, fun _ _ => rfl⟩
  | ok enc =>
      rw [hsel] at h
      dsimp only at h
      cases henc : encB (adjustForLZW enc s).1 (adjustForLZW enc s).2.stream with
      | ok encoded => rw [henc] at h; simp at h
      | error m2 =>
          rw [henc] at h
          cases h
          refine ⟨adjustForLZW_stream enc s, ?_, ?_⟩
          · cases enc <;>
              first
                | rfl
                | exact PdfDict.get_set_ne _ _ _ _ (by decide)
          · intro key hkey
            cases enc <;>
              first
                | rfl
                | exact PdfDict.get_set_ne _ _ _ _ hkey

/-- Witness for C4 (amended) at the failing LZW encode: payload,
`Length`, and all non-`EarlyChange` entries of the returned stream are
the pre-call ones. -/
theorem encode_stream_failure_preserves_payload_and_length_witness :
    sLzwAfter.stream = sLzw.stream ∧
    sLzwAfter.dict.Get "Length" = sLzw.dict.Get "Length" ∧
    ∀ key, key ≠ "EarlyChange" →
      sLzwAfter.dict.Get key = sLzw.dict.Get key :=
  encode_stream_failure_preserves_payload_and_length ctorsW encBW sLzw
    "codec failure" sLzwAfter rfl

/-- One buffered read advances the logical offset by exactly the bytes
the caller consumed, whatever the physical read-ahead size did to the
source's seek position. -/
theorem bufRead_offset_step (readAhead k : Nat) (st : BufReaderState) :
    GetFileOffset (bufRead readAhead k st).2 =
      GetFileOffset st + ((bufRead readAhead k st).1 : Int) := by
  unfold bufRead GetFileOffset
  split <;> dsimp only <;> omega

/-- C8: `GetFileOffset` returns the logical position — after any
sequence of reads through the buffered reader it equals the starting
logical position plus the total bytes consumed by the caller,
independent of the read-ahead size; and `SetFileOffset(offset)` followed
by `GetFileOffset` yields exactly `offset`, the buffer having been
discarded. -/
theorem buffered_reader_logical_offset (readAhead : Nat) (ks : List Nat)
    (st : BufReaderState) (offset : Nat) :
    GetFileOffset (bufReadMany readAhead ks st).2 =
      GetFileOffset st + ((bufReadMany readAhead ks st).1 : Int) ∧
    GetFileOffset (SetFileOffset st offset) = (offset : Int) := by
  constructor
  · induction ks generalizing st with
    | nil => simp [bufReadMany]
    | cons k ks ih =>
        have h1 := bufRead_offset_step readAhead k st
        have h2 := ih (bufRead readAhead k st).2
        unfold bufReadMany
        dsimp only
        rw [h2, h1]
        push_cast
        ring
  · simp [GetFileOffset, SetFileOffset]

/-- Invariant of the `ReadAtLeast` loop: a nil-error return delivers at
least the remaining request on top of the bytes already accumulated, and
never more than the destination's capacity. -/
theorem readAtLeastLoop_ok_bounds (pLen : Nat) (resps : List ReadResp) :
    ∀ (start : Nat) (remaining : Int) (c : Nat), start ≤ pLen →
      ReadAtLeastLoop pLen resps start remaining = some (.ok c) →
      remaining + (start : Int) ≤ (c : Int) ∧ c ≤ pLen := by
  induction resps with
  | nil =>
      intro start remaining c hs h
      unfold ReadAtLeastLoop at h
      split at h
      · cases h
        omega
      · simp at h
  | cons r rest ih =>
      intro start remaining c hs h
      unfold ReadAtLeastLoop at h
      split at h
      · cases h
        omega
      · cases r with
        | fail => simp at h
        | bytes k =>
            dsimp only at h
            have := ih (start + min k (pLen - start))
              (remaining - (min k (pLen - start) : Nat)) c (by omega) h
            omega

/-- C9 (amended): `ReadAtLeast` accumulates across possibly-short
underlying reads until AT LEAST `n` bytes are obtained; a nil-error
return carries a byte count that is at least `n` and at most the
destination's capacity (hence exactly `n` whenever the destination
buffer has length `n`, but possibly more when it is longer); and an
error of the underlying source while bytes are still owed surfaces as
the Read failure carrying the bytes accumulated so far. -/
theorem read_at_least_amended (pLen : Nat) (n : Int) (resps : List ReadResp)
    (rest : List ReadResp) (start1 : Nat) (remaining1 : Int) (c : Nat) :
    (ReadAtLeast pLen n resps = some (.ok c) →
      n ≤ (c : Int) ∧ c ≤ pLen) ∧
    (0 < remaining1 →
      ReadAtLeastLoop pLen (.fail :: rest) start1 remaining1 =
        some (.err start1 "Failed reading")) := by
  constructor
  · intro h
    have := readAtLeastLoop_ok_bounds pLen resps 0 n c (Nat.zero_le _) h
    omega
  · intro hpos
    unfold ReadAtLeastLoop
    rw [if_neg (by omega)]

/-- Witness for C9 (amended): a 3-byte destination filled by two short
reads of 2 bytes returns exactly 3; a failing first read with one byte
still owed returns the Read failure. -/
theorem read_at_least_amended_witness :
    ReadAtLeast 3 3 [.bytes 2, .bytes 2] = some (.ok 3) ∧
    ((3 : Int) ≤ ((3 : Nat) : Int) ∧ (3 : Nat) ≤ 3) ∧
    ReadAtLeastLoop 3 [.fail] 0 1 = some (.err 0 "Failed reading") :=
  ⟨rfl,
    (read_at_least_amended 3 3 [.bytes 2, .bytes 2] [] 0 1 3).1 rfl,
    (read_at_least_amended 3 3 [.bytes 2, .bytes 2] [] 0 1 3).2
      (by decide)⟩

/-- C9 counterexample: with a 10-byte destination and a request of 3,
one underlying read delivering 5 bytes makes the loop exit and return
the count 5 with a nil error — `ReadAtLeast` does NOT return exactly
the requested count on success. -/
theorem read_at_least_exact_count_counterexample :
    ReadAtLeast 10 3 [.bytes 5] = some (.ok 5) ∧ (5 : Nat) ≠ 3 :=
  ⟨rfl, by decide⟩

end Unidoc
